import Mathlib

/-!
Verification of the natural-language specification of the `bpmn-parser`
BPMN 2.0 workflow engine against its source (`bpmn_types.py`, `server.py`).

The embedding models Python values as an inductive `PyVal`, Python dicts as
insertion-ordered association lists with unique keys (`dget`/`dset`/`derase`
mirror `d[k]`, `d[k] = v`, `d.pop(k)`), and each relevant method of the
source as a pure Lean function over these.  Parts of the repository that are
not among the given sources (`bpmn_model.py`, `utils/common.py`) are
modelled from the specification text; each such definition carries a doc
comment starting with "Modelled from the spec:".
-/

/-- A JSON-like Python value, as stored in an instance's `variables` map. -/
inductive PyVal where
  | pynone : PyVal
  | pybool : Bool → PyVal
  | pyint : Int → PyVal
  | pystr : String → PyVal
  | pylist : List PyVal → PyVal
  | pydict : List (String × PyVal) → PyVal

/-- A Python dict with string keys, as an insertion-ordered association list.
The source only ever builds dicts with pairwise distinct keys; theorems that
need this distinctness take it as a `Nodup` hypothesis. -/
abbrev Dict := List (String × PyVal)

/-- `d[k]` lookup: the value at the first matching key, if any. -/
def dget {α : Type} : List (String × α) → String → Option α
  | [], _ => none
  | kv :: rest, k => if kv.1 = k then some kv.2 else dget rest k

/-- `d[k] = v`: replace the value at an existing key in place, else append
the new pair at the end (Python's insertion-order semantics). -/
def dset {α : Type} : List (String × α) → String → α → List (String × α)
  | [], k, v => [(k, v)]
  | kv :: rest, k, v => if kv.1 = k then (k, v) :: rest else kv :: dset rest k v

/-- Remove a key (the guts of Python's `d.pop(k)`). -/
def derase {α : Type} : List (String × α) → String → List (String × α)
  | [], _ => []
  | kv :: rest, k => if kv.1 = k then derase rest k else kv :: derase rest k

/-- `d.pop(k)` with no default: the popped value and the remaining dict, or
`none` for Python's `KeyError`. -/
def dpop {α : Type} (d : List (String × α)) (k : String) :
    Option (α × List (String × α)) :=
  match dget d k with
  | some v => some (v, derase d k)
  | none => none

/-- `list(d.keys())`. -/
def dkeys {α : Type} (d : List (String × α)) : List String :=
  d.map (fun kv => kv.1)

theorem dget_dset_self {α : Type} (d : List (String × α)) (k : String) (v : α) :
    dget (dset d k v) k = some v := by
  induction d with
  | nil => simp [dget, dset]
  | cons kv rest ih =>
    by_cases h : kv.1 = k <;> simp [dget, dset, h, ih]

theorem dget_dset_ne {α : Type} (d : List (String × α)) (k k' : String) (v : α)
    (h : k ≠ k') : dget (dset d k v) k' = dget d k' := by
  induction d with
  | nil => simp [dget, dset, h]
  | cons kv rest ih =>
    by_cases hk : kv.1 = k
    · subst hk
      simp [dget, dset, h]
    · by_cases hk' : kv.1 = k' <;> simp [dget, dset, hk, hk', ih, Ne.symm h]

theorem dget_derase_self {α : Type} (d : List (String × α)) (k : String) :
    dget (derase d k) k = none := by
  induction d with
  | nil => simp [dget, derase]
  | cons kv rest ih =>
    by_cases h : kv.1 = k <;> simp [dget, derase, h, ih]

theorem dget_derase_ne {α : Type} (d : List (String × α)) (k k' : String)
    (h : k ≠ k') : dget (derase d k) k' = dget d k' := by
  induction d with
  | nil => simp [dget, derase]
  | cons kv rest ih =>
    by_cases hk : kv.1 = k
    · subst hk
      simp [dget, derase, h, ih, Ne.symm h]
    · by_cases hk' : kv.1 = k' <;> simp [dget, derase, hk, hk', ih, Ne.symm h]

theorem dget_eq_none_of_not_mem_dkeys {α : Type} (d : List (String × α))
    (k : String) (h : k ∉ dkeys d) : dget d k = none := by
  induction d with
  | nil => simp [dget]
  | cons kv rest ih =>
    simp only [dkeys, List.map_cons, List.mem_cons] at h
    push_neg at h
    have h1 : ¬ kv.1 = k := fun hh => h.1 hh.symm
    simp only [dget, h1, if_false]
    exact ih h.2

/-- One fold pattern the source uses three times (`run_subprocess`'s two
retain/write-back loops and `ReceiveTask.run`): walk a list of keys and copy
from a source dict into an accumulator dict each key that the source dict
holds. -/
def copyKeys (srcD : Dict) : List String → Dict → Dict
  | [], p => p
  | key :: rest, p =>
    copyKeys srcD rest
      (match dget srcD key with
       | some v => dset p key v
       | none => p)

theorem dget_copyKeys (srcD : Dict) (keys : List String) (p : Dict)
    (k : String) :
    dget (copyKeys srcD keys p) k =
      if k ∈ keys ∧ (dget srcD k).isSome then dget srcD k else dget p k := by
  induction keys generalizing p with
  | nil => simp [copyKeys]
  | cons k0 rest ih =>
    simp only [copyKeys]
    by_cases hk : k0 = k
    · subst hk
      cases hv : dget srcD k0 with
      | none =>
        simp only [hv]
        rw [ih p]
        by_cases hmem : k0 ∈ rest <;> simp [hmem, hv]
      | some v =>
        simp only [hv]
        rw [ih (dset p k0 v)]
        by_cases hmem : k0 ∈ rest <;> simp [hmem, hv, dget_dset_self]
    · have hk' : ¬ k = k0 := fun hh => hk hh.symm
      cases hv : dget srcD k0 with
      | none =>
        simp only [hv]
        rw [ih p]
        simp [List.mem_cons, hk']
      | some v =>
        simp only [hv]
        rw [ih (dset p k0 v), dget_dset_ne p k0 k v hk]
        simp [List.mem_cons, hk']

/-! ## String primitives

Python's `in`, `split`, `strip` and `lower` on strings, implemented over
the character list so that concrete instances reduce inside the kernel. -/

/-- `sep in s` for a single character. -/
def charInStr (c : Char) (s : String) : Bool :=
  s.data.contains c

/-- `s.split(sep)` for a single-character separator: split at every
occurrence, keeping empty pieces (so the result is never empty). -/
def splitChar (sep : Char) : List Char → List (List Char)
  | [] => [[]]
  | c :: cs =>
    let r := splitChar sep cs
    if c = sep then [] :: r
    else
      match r with
      | [] => [[c]]
      | piece :: rest => (c :: piece) :: rest

/-- `s.split(sep)` as strings. -/
def strSplitOn (s : String) (sep : Char) : List String :=
  (splitChar sep s.data).map String.mk

/-- The head of a split result, `""` when empty (the split of §4.6's
`str(source).split(".")[0]` is never empty). -/
def headStr : List String → String
  | [] => ""
  | s :: _ => s

/-- A Python whitespace character, as far as `str.strip()` is concerned. -/
def isSpaceChar (c : Char) : Bool :=
  c = ' ' || c = '\t' || c = '\n' || c = '\r'

/-- `s.strip()`. -/
def pyStrip (s : String) : String :=
  String.mk (((s.data.dropWhile isSpaceChar).reverse.dropWhile
    isSpaceChar).reverse)

/-- `s.lower()` (ASCII, which is all the source's queries use). -/
def pyLower (s : String) : String :=
  String.mk (s.data.map (fun c =>
    if 65 ≤ c.toNat ∧ c.toNat ≤ 90 then Char.ofNat (c.toNat + 32) else c))

/-! ## The expression evaluator (`utils/common.py`, modelled from the spec)

`parse_expression`, `nested_dict_get` and `nested_dict_set` live in
`utils/common.py`, which is not among the given sources; §4.1 of the spec
gives their contract, and the definitions below follow its words. -/

/-- Auxiliary walk for `nested_dict_get`: follow a `.`-split path through
nested dicts; any failure yields absent. -/
def nestedGetAux : List String → PyVal → Option PyVal
  | [], v => some v
  | p :: rest, PyVal.pydict entries =>
    match dget entries p with
    | some v => nestedGetAux rest v
    | none => none
  | _ :: _, _ => none

/-- Modelled from the spec: `nested_dict_get(map, "a.b.c")` of
`utils/common.py` (absent from the sources) traverses intermediate maps by
the `.`-separated path; failures return absent (§4.1). -/
def nested_dict_get (d : Dict) (path : String) : Option PyVal :=
  nestedGetAux (strSplitOn path (Char.ofNat 46)) (PyVal.pydict d)

/-- Modelled from the spec: the "string form of the resolved value" used
when a reference is substituted into literal text (§4.1).  Mirrors Python's
`str()` on scalars; container rendering is an approximation (no claim
depends on it). -/
def pyStr : PyVal → String
  | PyVal.pynone => "None"
  | PyVal.pybool true => "True"
  | PyVal.pybool false => "False"
  | PyVal.pyint n => toString n
  | PyVal.pystr s => s
  | PyVal.pylist xs =>
    "[" ++ String.intercalate ", " (xs.attach.map (fun x => pyStr x.1)) ++ "]"
  | PyVal.pydict es =>
    "\x7b" ++
      String.intercalate ", "
        (es.attach.map (fun e => e.1.1 ++ ": " ++ pyStr e.1.2)) ++ "\x7d"
decreasing_by
  · exact Nat.lt_trans (List.sizeOf_lt_of_mem x.2) (by simp)
  · have h1 : sizeOf e.1 ≤ sizeOf es := Nat.le_of_lt (List.sizeOf_lt_of_mem e.2)
    have h2 : sizeOf e.1.2 < sizeOf e.1 := by
      rcases e.1 with ⟨a, b⟩
      simp
    simp
    omega

/-- One piece of an expression string: literal text, or a `$`-brace
reference to a variable path. -/
inductive Piece where
  | lit : List Char → Piece
  | ref : List Char → Piece

/-- Scanner for `${path}` occurrences.  The Boolean mode says whether we are
inside an unclosed `$`-brace reference; `acc` holds the chars of the current
piece in reverse. -/
def scanAux : List Char → Bool → List Char → List Piece
  | [], false, acc => [Piece.lit acc.reverse]
  | [], true, acc => [Piece.lit ([Char.ofNat 36, Char.ofNat 123] ++ acc.reverse)]
  | c :: cs, true, acc =>
    if c = Char.ofNat 125 then Piece.ref acc.reverse :: scanAux cs false []
    else scanAux cs true (c :: acc)
  | c :: c2 :: cs2, false, acc =>
    if c = Char.ofNat 36 ∧ c2 = Char.ofNat 123 then
      Piece.lit acc.reverse :: scanAux cs2 true []
    else scanAux (c2 :: cs2) false (c :: acc)
  | [c], false, acc => [Piece.lit (c :: acc).reverse]
termination_by l _ _ => l.length
decreasing_by all_goals simp_arith

/-- The pieces of an expression string, dropping empty literal chunks. -/
def piecesOf (s : String) : List Piece :=
  (scanAux s.toList false []).filter
    (fun p => match p with | Piece.lit [] => false | _ => true)

/-- Render one piece against a context: literal text passes through, a
reference substitutes the string form of the resolved value, and an absent
path substitutes as empty (§4.1). -/
def renderPiece (ctx : Dict) (p : Piece) : String :=
  match p with
  | Piece.lit cs => String.mk cs
  | Piece.ref cs =>
    match nested_dict_get ctx (String.mk cs) with
    | some v => pyStr v
    | none => ""

/-- Modelled from the spec: `parse_expression(expr, ctx)` of
`utils/common.py` (absent from the sources), §4.1: an exact `$`-brace
`path` returns `ctx[path]` by nested lookup, or the original string if the
path is absent; interleaved references substitute their string forms
(absent paths as empty); non-string inputs pass through unchanged; the
evaluator never fails. -/
def parse_expression (expr : PyVal) (ctx : Dict) : PyVal :=
  match expr with
  | PyVal.pystr s =>
    match piecesOf s with
    | [Piece.ref p] =>
      match nested_dict_get ctx (String.mk p) with
      | some v => v
      | none => PyVal.pystr s
    | pieces => PyVal.pystr (String.join (pieces.map (renderPiece ctx)))
  | v => v

/-- Python truthiness (`bool(x)`) on the modelled values. -/
def pytruthy : PyVal → Bool
  | PyVal.pynone => false
  | PyVal.pybool b => b
  | PyVal.pyint n => n != 0
  | PyVal.pystr s => s != ""
  | PyVal.pylist xs => !xs.isEmpty
  | PyVal.pydict d => !d.isEmpty

/-! ## Gateways (`bpmn_types.py`, classes `Gateway`, `ParallelGateway`,
`ExclusiveGateway`) -/

/-- The state of a parsed gateway vertex.  `Gateway.parse` initializes
`incoming`/`outgoing` to the counts of `bpmn:incoming`/`bpmn:outgoing`
children; the field `incoming` doubles as `ParallelGateway`'s join counter.
It is an `Int` because `add_token` decrements it without any lower bound. -/
structure ParallelGateway where
  incoming : Int
  outgoing : Nat

/-- `ParallelGateway.add_token`: a token arrival decrements the join
counter in place. -/
def ParallelGateway.add_token (g : ParallelGateway) : ParallelGateway :=
  { g with incoming := g.incoming - 1 }

/-- `ParallelGateway.run`: the join fires exactly when the counter is zero.
Nothing in the source ever resets the counter. -/
def ParallelGateway.run (g : ParallelGateway) : Bool :=
  g.incoming == 0

/-- `k` successive token arrivals at a parallel gateway. -/
def addTokens (g : ParallelGateway) : Nat → ParallelGateway
  | 0 => g
  | n + 1 => (addTokens g n).add_token

theorem addTokens_incoming (g : ParallelGateway) (k : Nat) :
    (addTokens g k).incoming = g.incoming - k := by
  induction k with
  | zero => simp [addTokens]
  | succ n ih =>
    simp [addTokens, ParallelGateway.add_token, ih]
    ring

/-- C1.  A parallel join parsed with two incoming edges fires exactly at
the second token arrival and at no other point — in particular never again
after the first round, because the counter is decremented in place and
never reset to its original value.  This contradicts the claim that the
counter is reset on firing so that a second round of `n` arrivals fires
the join again. -/
theorem parallel_join_counter_not_reset :
    ∀ k : Nat, (addTokens ⟨2, 1⟩ k).run = true ↔ k = 2 := by
  intro k
  rw [ParallelGateway.run, addTokens_incoming]
  simp only [beq_iff_eq]
  omega

/-- A sequence flow as parsed by `SequenceFlow.parse`: endpoints from
`sourceRef`/`targetRef` and an optional `bpmn:conditionExpression` text. -/
structure SequenceFlow where
  flowId : String
  source : String
  target : String
  condition : Option String

/-- Modelled from the spec: truthiness of one outgoing edge's condition
against the instance variables.  Condition evaluation lives in
`bpmn_model.py`, absent from the sources; §4.3 evaluates the condition
with the §4.1 evaluator and tests truthiness.  An edge without a condition
is not truthy (invariant I2 makes such an edge the declared `default`). -/
def flowTruthy (vars : Dict) (f : SequenceFlow) : Bool :=
  match f.condition with
  | some c => pytruthy (parse_expression (PyVal.pystr c) vars)
  | none => false

/-- Modelled from the spec: the exclusive-gateway routing decision of
`bpmn_model.py`, absent from the sources.  §4.3: "evaluate each outgoing
edge's condition against `variables` in edge-declaration order; return the
first edge whose condition is truthy; if none is truthy, return the
`default` edge if declared; otherwise fail."  `ExclusiveGateway.parse`
supplies `defaultEdge` from the `default` attribute.  `none` is the
failure outcome. -/
def exclusiveChoose (vars : Dict) (outflows : List SequenceFlow)
    (defaultEdge : Option String) : Option String :=
  match outflows.find? (flowTruthy vars) with
  | some f => some f.flowId
  | none => defaultEdge

theorem find_some_split {α : Type} (p : α → Bool) :
    ∀ (l : List α) (a : α), l.find? p = some a →
      ∃ l1 l2, l = l1 ++ a :: l2 ∧ p a = true ∧ ∀ x ∈ l1, p x = false := by
  intro l
  induction l with
  | nil => intro a h; simp [List.find?] at h
  | cons x xs ih =>
    intro a h
    by_cases hx : p x
    · rw [List.find?_cons_of_pos _ hx] at h
      exact ⟨[], xs, by simp [(Option.some_inj.mp h).symm], by
        simpa [(Option.some_inj.mp h).symm] using hx, by simp⟩
    · rw [List.find?_cons_of_neg _ hx] at h
      obtain ⟨l1, l2, hl, hpa, hl1⟩ := ih a h
      exact ⟨x :: l1, l2, by simp [hl], hpa, by
        intro y hy
        rcases List.mem_cons.mp hy with hy | hy
        · subst hy; simpa using hx
        · exact hl1 y hy⟩

/-- C2.  For every exclusive gateway, variable state and condition
evaluator, the routing decision picks exactly one outgoing edge: the first
edge in declaration order whose condition is truthy; if no condition is
truthy, the declared default edge; and it fails (`none`) exactly when no
condition is truthy and no default is declared. -/
theorem exclusive_gateway_first_truthy (vars : Dict)
    (outflows : List SequenceFlow) (defaultEdge : Option String) :
    match exclusiveChoose vars outflows defaultEdge with
    | some e =>
        (∃ f l1 l2, outflows = l1 ++ f :: l2 ∧ flowTruthy vars f = true ∧
          (∀ g ∈ l1, flowTruthy vars g = false) ∧ e = f.flowId)
        ∨ ((∀ g ∈ outflows, flowTruthy vars g = false) ∧ defaultEdge = some e)
    | none => (∀ g ∈ outflows, flowTruthy vars g = false) ∧ defaultEdge = none := by
  cases hf : outflows.find? (flowTruthy vars) with
  | some f =>
    obtain ⟨l1, l2, hl, hpa, hl1⟩ := find_some_split (flowTruthy vars) outflows f hf
    simp only [exclusiveChoose, hf]
    exact Or.inl ⟨f, l1, l2, hl, hpa, hl1, rfl⟩
  | none =>
    have hall : ∀ g ∈ outflows, flowTruthy vars g = false := by
      intro g hg
      have := List.find?_eq_none.mp hf g hg
      simpa using this
    simp only [exclusiveChoose, hf]
    cases defaultEdge with
    | none => exact ⟨hall, rfl⟩
    | some d => exact Or.inr ⟨hall, rfl⟩

/-! ## Service tasks (`bpmn_types.py`, class `ServiceTask`) -/

/-- The output-binding loop at the end of `ServiceTask.run_connector`: for
each declared output `key` (with declared expression `expr`), first — if
the expression is non-empty — evaluate it against the response body `r` and
store the result, then — if `r` has a top-level field `key` — overwrite
with `r[key]`.  Declared values are modelled as expression strings (the
string case of `camunda:outputParameter`); the `try`/`except` around the
evaluation is inert here because the modelled evaluator is total (§4.1:
"never fails"). -/
def bindOutputs (r : Dict) : List (String × String) → Dict → Dict
  | [], vars => vars
  | (key, expr) :: rest, vars =>
    let vars1 :=
      if 0 < expr.length then
        dset vars key (parse_expression (PyVal.pystr expr) r)
      else vars
    let vars2 :=
      match dget r key with
      | some v => dset vars1 key v
      | none => vars1
    bindOutputs r rest vars2

/-- The `if self.output_variables:` guard plus the binding loop of
`ServiceTask.run_connector`. -/
def run_connector_outputs (output_variables : List (String × String))
    (r vars : Dict) : Dict :=
  if output_variables.isEmpty then vars else bindOutputs r output_variables vars

theorem bindOutputs_not_mem (r : Dict) (outs : List (String × String))
    (vars : Dict) (key : String) (h : key ∉ dkeys outs) :
    dget (bindOutputs r outs vars) key = dget vars key := by
  induction outs generalizing vars with
  | nil => simp [bindOutputs]
  | cons kv rest ih =>
    obtain ⟨k0, e0⟩ := kv
    simp only [dkeys, List.map_cons, List.mem_cons] at h
    push_neg at h
    simp only [bindOutputs]
    rw [ih _ h.2]
    have hne : k0 ≠ key := fun hh => h.1 hh.symm
    cases hv : dget r k0 with
    | none =>
      by_cases he : 0 < e0.length <;> simp [he, hv, dget_dset_ne _ _ _ _ hne]
    | some v =>
      by_cases he : 0 < e0.length <;> simp [he, hv, dget_dset_ne _ _ _ _ hne]

/-- C3.  Direct key wins: after `run_connector`'s output binding, any
declared output key that is present as a top-level field of the response
body `r` holds exactly `r`'s value for it — the expression evaluation of
the first step is unconditionally overwritten by the direct key match. -/
theorem service_task_direct_key_wins (outs : List (String × String))
    (r vars : Dict) (key : String) (v : PyVal)
    (hnd : (dkeys outs).Nodup) (hmem : key ∈ dkeys outs)
    (hr : dget r key = some v) :
    dget (run_connector_outputs outs r vars) key = some v := by
  have houts : ¬ outs.isEmpty := by
    cases outs with
    | nil => simp [dkeys] at hmem
    | cons kv rest => simp
  rw [run_connector_outputs, if_neg houts]
  clear houts
  induction outs generalizing vars with
  | nil => simp [dkeys] at hmem
  | cons kv rest ih =>
    obtain ⟨k0, e0⟩ := kv
    simp only [dkeys, List.map_cons, List.mem_cons] at hmem
    simp only [dkeys, List.map_cons, List.nodup_cons] at hnd
    simp only [bindOutputs]
    by_cases hk : key = k0
    · subst hk
      rw [hr]
      rw [bindOutputs_not_mem r rest _ key hnd.1]
      exact dget_dset_self _ _ _
    · cases hmem with
      | inl h => exact absurd h hk
      | inr h =>
        cases hv : dget r k0 with
        | none => exact ih _ hnd.2 h
        | some w => exact ih _ hnd.2 h

theorem service_task_direct_key_wins_witness :
    dget
      (run_connector_outputs [("ticket_id", "")]
        [("ticket_id", PyVal.pystr "T-9")] []) "ticket_id" =
      some (PyVal.pystr "T-9") :=
  service_task_direct_key_wins [("ticket_id", "")]
    [("ticket_id", PyVal.pystr "T-9")] [] "ticket_id" (PyVal.pystr "T-9")
    (by simp [dkeys]) (by simp [dkeys]) rfl

/-- What `await response.json()` did, as seen by the `try`/`except` in
`run_connector`: a decoded JSON body, an `aiohttp.ContentTypeError` (the
response did not declare a JSON content type), or any other decoding
failure (e.g. a malformed body under a JSON content type). -/
inductive JsonOutcome where
  | body : Dict → JsonOutcome
  | contentTypeError : JsonOutcome
  | decodeError : JsonOutcome

/-- An HTTP response as consumed by `run_connector`. -/
structure HttpResponse where
  status : Nat
  text : String
  jsonResult : JsonOutcome

/-- The error a connector invocation can raise: the bad-status `Exception`
carrying `response.text`, or a re-raised JSON decoding error. -/
inductive ConnectorError where
  | badStatus : String → ConnectorError
  | jsonError : ConnectorError

/-- The response handling of `ServiceTask.run_connector`: statuses outside
`{200, 201}` raise with the response text; then `r = {}` is tolerated for
a `ContentTypeError` from `response.json()`, while any other decoding
exception is re-raised (`if not isinstance(e, ContentTypeError): raise e`). -/
def handleResponse (resp : HttpResponse) : Except ConnectorError Dict :=
  if resp.status = 200 ∨ resp.status = 201 then
    match resp.jsonResult with
    | JsonOutcome.body b => Except.ok b
    | JsonOutcome.contentTypeError => Except.ok []
    | JsonOutcome.decodeError => Except.error ConnectorError.jsonError
  else Except.error (ConnectorError.badStatus resp.text)

/-- C4, counterexample.  A 200 response whose body is not JSON need not
yield an empty object: when the decoding failure is not a
`ContentTypeError` (a malformed body served under a JSON content type),
`run_connector` re-raises it instead of tolerating it. -/
theorem connector_nonjson_decode_error_cex :
    handleResponse ⟨200, "bad body", JsonOutcome.decodeError⟩ =
      Except.error ConnectorError.jsonError ∧
    handleResponse ⟨200, "bad body", JsonOutcome.decodeError⟩ ≠
      Except.ok ([] : Dict) :=
  ⟨rfl, fun h => Except.noConfusion h⟩

/-- C4, amended.  A status outside `{200, 201}` raises an error carrying
the response body; a 200/201 response tolerates exactly a content-type
decoding failure, yielding the empty object; a JSON body is returned as
is; any other decoding failure is re-raised. -/
theorem connector_status_and_json_handling (resp : HttpResponse) :
    (¬ (resp.status = 200 ∨ resp.status = 201) →
      handleResponse resp = Except.error (ConnectorError.badStatus resp.text)) ∧
    ((resp.status = 200 ∨ resp.status = 201) →
      ∀ b, resp.jsonResult = JsonOutcome.body b →
        handleResponse resp = Except.ok b) ∧
    ((resp.status = 200 ∨ resp.status = 201) →
      resp.jsonResult = JsonOutcome.contentTypeError →
        handleResponse resp = Except.ok []) ∧
    ((resp.status = 200 ∨ resp.status = 201) →
      resp.jsonResult = JsonOutcome.decodeError →
        handleResponse resp = Except.error ConnectorError.jsonError) := by
  refine ⟨?_, ?_, ?_, ?_⟩
  · intro h; simp [handleResponse, h]
  · intro h b hb; simp [handleResponse, h, hb]
  · intro h hb; simp [handleResponse, h, hb]
  · intro h hb; simp [handleResponse, h, hb]

theorem connector_status_and_json_handling_witness :
    handleResponse ⟨404, "oops", JsonOutcome.body []⟩ =
      Except.error (ConnectorError.badStatus "oops") ∧
    handleResponse ⟨200, "", JsonOutcome.contentTypeError⟩ =
      Except.ok [] :=
  ⟨(connector_status_and_json_handling ⟨404, "oops", JsonOutcome.body []⟩).1
      (by decide),
    (connector_status_and_json_handling
      ⟨200, "", JsonOutcome.contentTypeError⟩).2.2.1 (Or.inl rfl) rfl⟩

/-- The scheduler-facing outcome of running one vertex (§4.3 of the spec),
with the failure outcome of §7. -/
inductive Outcome where
  | Immediate : List String → Outcome
  | Waiting : Outcome
  | Done : Outcome
  | Failed : Outcome

/-- What one call of `ServiceTask.run` did: the `variables` map
afterwards, whether any HTTP request went out, the connector error if one
was raised, and the Python return value. -/
structure SvcRunResult where
  vars : Dict
  httpCalled : Bool
  connectorError : Option ConnectorError
  returned : Bool

/-- `ServiceTask.run`: only when the parsed connector id resolved to the
datasource type `"http-connector"` is `run_connector` awaited (the
behaviour of that call is abstracted as a parameter); otherwise the method
returns `False` at once, doing nothing at all.  `ServiceTask.parse` sets
`connector_fields["connector_id"]` to the datasource's `type` when the
descriptor id is found in the configured datasources map, and leaves it
`""` otherwise. -/
def serviceTask_run (connectorId : String)
    (connector : Dict → SvcRunResult) (vars : Dict) : SvcRunResult :=
  if connectorId = "http-connector" ∧ 0 < connectorId.length then
    connector vars
  else
    { vars := vars, httpCalled := false, connectorError := none,
      returned := false }

/-- Modelled from the spec: how the scheduler in `bpmn_model.py` (absent
from the sources) turns a service-task run into an `Outcome`.  §4.3 step 3:
"If the connector descriptor's id resolves (via a configured datasources
map) to an HTTP endpoint, delegate to §4.4; else succeed with no side
effect"; step 5: "Emit `Immediate` on success; on connector failure,
transition instance to `failed`" — so only a raised connector error fails
the task. -/
def serviceOutcome (outgoing : List String) (res : SvcRunResult) : Outcome :=
  if res.connectorError.isSome then Outcome.Failed
  else Outcome.Immediate outgoing

/-- C5.  A service task whose connector descriptor does not resolve to an
HTTP endpoint (the parsed connector id is anything but `"http-connector"`)
runs with no side effect: no HTTP call, vars unchanged, and the task
completes with `Immediate` on all outgoing edges. -/
theorem service_task_no_endpoint_noop (connectorId : String)
    (connector : Dict → SvcRunResult) (vars : Dict)
    (outgoing : List String) (h : connectorId ≠ "http-connector") :
    (serviceTask_run connectorId connector vars).vars = vars ∧
    (serviceTask_run connectorId connector vars).httpCalled = false ∧
    serviceOutcome outgoing (serviceTask_run connectorId connector vars) =
      Outcome.Immediate outgoing := by
  have hcond : ¬ (connectorId = "http-connector" ∧ 0 < connectorId.length) :=
    fun hc => h hc.1
  simp [serviceTask_run, hcond, serviceOutcome]

theorem service_task_no_endpoint_noop_witness :
    (serviceTask_run ""
        (fun v => ⟨v, true, some ConnectorError.jsonError, true⟩)
        [("x", PyVal.pyint 1)]).vars = [("x", PyVal.pyint 1)] ∧
    (serviceTask_run ""
        (fun v => ⟨v, true, some ConnectorError.jsonError, true⟩)
        [("x", PyVal.pyint 1)]).httpCalled = false ∧
    serviceOutcome ["edge1"]
        (serviceTask_run ""
          (fun v => ⟨v, true, some ConnectorError.jsonError, true⟩)
          [("x", PyVal.pyint 1)]) = Outcome.Immediate ["edge1"] :=
  service_task_no_endpoint_noop ""
    (fun v => ⟨v, true, some ConnectorError.jsonError, true⟩)
    [("x", PyVal.pyint 1)] ["edge1"] (by decide)

/-! ## User tasks (`bpmn_types.py`, class `UserTask`) -/

/-- The loop of `UserTask.run`: for each `(k, v)` in the submitted form
payload, copy `v` into the state iff `k` names a declared form field. -/
def userTaskApply (form_field_ids : List String) : Dict → Dict → Dict
  | [], state => state
  | (k, v) :: rest, state =>
    userTaskApply form_field_ids rest
      (if k ∈ form_field_ids then dset state k v else state)

/-- `UserTask.run(state, user_input)`: apply the payload and return `True`. -/
def userTask_run (form_field_ids : List String) (state user_input : Dict) :
    Dict × Bool :=
  (userTaskApply form_field_ids user_input state, true)

/-- A `UserFormMessage` as enqueued by the HTTP boundary. -/
structure UserFormMessage where
  task_id : String
  payload : Dict

/-- Modelled from the spec: message dispatch lives in the scheduler of
`bpmn_model.py`, absent from the sources.  §4.3: "On arrival of a
`UserForm` message whose `task_id` matches", run the user task on the
payload, "then emit `Immediate` with all outgoing edges". -/
def deliverUserForm (taskId : String) (form_field_ids outgoing : List String)
    (state : Dict) (msg : UserFormMessage) : Option (Dict × Outcome) :=
  if msg.task_id = taskId then
    some ((userTask_run form_field_ids state msg.payload).1,
      Outcome.Immediate outgoing)
  else none

theorem dget_userTaskApply (form_field_ids : List String) (ui state : Dict)
    (k : String) (hnd : (dkeys ui).Nodup) :
    dget (userTaskApply form_field_ids ui state) k =
      if k ∈ form_field_ids ∧ (dget ui k).isSome then dget ui k
      else dget state k := by
  induction ui generalizing state with
  | nil => simp [userTaskApply, dget]
  | cons kv rest ih =>
    obtain ⟨k0, v0⟩ := kv
    simp only [dkeys, List.map_cons, List.nodup_cons] at hnd
    simp only [userTaskApply]
    rw [ih _ hnd.2]
    by_cases hk : k = k0
    · subst hk
      have hrest : dget rest k = none :=
        dget_eq_none_of_not_mem_dkeys rest k hnd.1
      simp only [dget, if_pos rfl, hrest]
      by_cases hf : k ∈ form_field_ids <;>
        simp [hf, dget_dset_self]
    · have hk0 : ¬ k0 = k := fun hh => hk hh.symm
      simp only [dget, if_neg hk0]
      by_cases hf : k0 ∈ form_field_ids <;>
        simp [hf, dget_dset_ne state k0 k v0 hk0]

/-- C6.  A matching `UserForm` message makes the user task copy into the
state exactly those payload entries whose keys name a declared form field
(other payload keys are ignored, other state keys are untouched), and the
task completes with `Immediate` on all outgoing edges. -/
theorem user_task_form_copy (taskId : String)
    (form_field_ids outgoing : List String) (state : Dict)
    (msg : UserFormMessage) (hmatch : msg.task_id = taskId)
    (hnd : (dkeys msg.payload).Nodup) :
    ∃ st2,
      deliverUserForm taskId form_field_ids outgoing state msg =
        some (st2, Outcome.Immediate outgoing) ∧
      ∀ k, dget st2 k =
        if k ∈ form_field_ids ∧ (dget msg.payload k).isSome then
          dget msg.payload k
        else dget state k := by
  refine ⟨userTaskApply form_field_ids msg.payload state, ?_, ?_⟩
  · simp [deliverUserForm, hmatch, userTask_run]
  · intro k
    exact dget_userTaskApply form_field_ids msg.payload state k hnd

theorem user_task_form_copy_witness :
    ∃ st2,
      deliverUserForm "t1" ["name"] ["e1"] []
          ⟨"t1", [("name", PyVal.pystr "Q"), ("junk", PyVal.pyint 3)]⟩ =
        some (st2, Outcome.Immediate ["e1"]) ∧
      ∀ k, dget st2 k =
        if k ∈ ["name"] ∧
            (dget [("name", PyVal.pystr "Q"), ("junk", PyVal.pyint 3)] k).isSome
          then dget [("name", PyVal.pystr "Q"), ("junk", PyVal.pyint 3)] k
        else dget ([] : Dict) k :=
  user_task_form_copy "t1" ["name"] ["e1"] []
    ⟨"t1", [("name", PyVal.pystr "Q"), ("junk", PyVal.pyint 3)]⟩ rfl
    (by simp [dkeys])

/-! ## Call activities (`bpmn_types.py`, class `CallActivity`) -/

/-- `CallActivity.transform_input_variables`, with Python's `KeyError`
made explicit as `none`: for each `(source, target)` of `in_mapping`, if
`source` contains `.` then look up the nested value, `pop` the top-level
key of the path (`KeyError` if absent) and store the value under `target`;
then — independently — if `source` is a declared `input_variables` key,
rename `source` to `target` via `pop` (`KeyError` if absent). -/
def transform_input_variables (input_variable_keys : List String) :
    List (String × String) → Dict → Option Dict
  | [], d => some d
  | (source, target) :: rest, d =>
    let step1 : Option Dict :=
      if charInStr (Char.ofNat 46) source then
        match dpop d (headStr (strSplitOn source (Char.ofNat 46))) with
        | some (_, dr) =>
          some (dset dr target ((nested_dict_get d source).getD PyVal.pynone))
        | none => none
      else some d
    match step1 with
    | none => none
    | some d1 =>
      let step2 : Option Dict :=
        if source ∈ input_variable_keys then
          match dpop d1 source with
          | some (v, d2) => some (dset d2 target v)
          | none => none
        else some d1
      match step2 with
      | none => none
      | some d2 => transform_input_variables input_variable_keys rest d2

/-- The child-variable construction of `CallActivity.run_subprocess`:
deep-copy the parent variables (the identity here, values being
immutable), transform them, then retain only the declared
`input_variables` keys. -/
def child_initial_variables (in_mapping : List (String × String))
    (input_variable_keys : List String) (parent : Dict) : Option Dict :=
  match transform_input_variables input_variable_keys in_mapping parent with
  | some copied => some (copyKeys copied input_variable_keys [])
  | none => none

/-- The input transformation exactly as the claim words it, for comparison
with `transform_input_variables`: a dotted source is nested-looked-up, its
top-level key removed and the value stored under the target; otherwise the
source key is renamed to the target — unconditionally, not only when the
source is a declared `input_variables` key. -/
def claimed_transform_input : List (String × String) → Dict → Dict
  | [], d => d
  | (source, target) :: rest, d =>
    claimed_transform_input rest
      (if charInStr (Char.ofNat 46) source then
        dset (derase d (headStr (strSplitOn source (Char.ofNat 46)))) target
          ((nested_dict_get d source).getD PyVal.pynone)
      else
        match dpop d source with
        | some (v, dr) => dset dr target v
        | none => d)

/-- The child-variable construction as the claim words it. -/
def claimed_child_initial_variables (in_mapping : List (String × String))
    (input_variable_keys : List String) (parent : Dict) : Dict :=
  copyKeys (claimed_transform_input in_mapping parent) input_variable_keys []

/-- C7, counterexample.  With `in_mapping = {a: b}`,
`input_variables = {b}` and parent variables `{a: 1}`, the claim's
construction renames `a` to `b` and the child starts with `{b: 1}`, but
the source only renames when the *source* key is declared in
`input_variables`, so it leaves `{a: 1}` untouched and the retention step
then empties the child's initial variables. -/
theorem call_activity_in_mapping_cex :
    child_initial_variables [("a", "b")] ["b"] [("a", PyVal.pyint 1)] =
      some [] ∧
    claimed_child_initial_variables [("a", "b")] ["b"]
      [("a", PyVal.pyint 1)] = [("b", PyVal.pyint 1)] :=
  ⟨rfl, rfl⟩

/-- C7, amended.  For each non-dotted mapping pair, the source renames
`src` to `dst` only when `src` is a declared `input_variables` key
(raising `KeyError` if `src` is then absent) and leaves the map unchanged
otherwise; a dotted `src` is nested-looked-up with its top-level key
popped (`KeyError` if absent) and the value stored under `dst`; finally
only keys named in `input_variables` are retained. -/
theorem call_activity_in_mapping_amended (src dst : String)
    (ivkeys : List String) (parent : Dict) (v w : PyVal) :
    (charInStr (Char.ofNat 46) src = false → src ∉ ivkeys →
      transform_input_variables ivkeys [(src, dst)] parent = some parent) ∧
    (charInStr (Char.ofNat 46) src = false → src ∈ ivkeys → dget parent src = some v →
      transform_input_variables ivkeys [(src, dst)] parent =
        some (dset (derase parent src) dst v)) ∧
    (charInStr (Char.ofNat 46) src = false → src ∈ ivkeys → dget parent src = none →
      transform_input_variables ivkeys [(src, dst)] parent = none) ∧
    (charInStr (Char.ofNat 46) src = true → src ∉ ivkeys →
      dget parent (headStr (strSplitOn src (Char.ofNat 46))) = some w →
      transform_input_variables ivkeys [(src, dst)] parent =
        some (dset (derase parent (headStr (strSplitOn src (Char.ofNat 46)))) dst
          ((nested_dict_get parent src).getD PyVal.pynone))) ∧
    (charInStr (Char.ofNat 46) src = true →
      dget parent (headStr (strSplitOn src (Char.ofNat 46))) = none →
      transform_input_variables ivkeys [(src, dst)] parent = none) ∧
    (∀ im d k, k ∉ ivkeys →
      child_initial_variables im ivkeys parent = some d → dget d k = none) := by
  refine ⟨?_, ?_, ?_, ?_, ?_, ?_⟩
  · intro h1 h2
    simp [transform_input_variables, h1, h2]
  · intro h1 h2 h3
    simp [transform_input_variables, h1, h2, dpop, h3]
  · intro h1 h2 h3
    simp [transform_input_variables, h1, h2, dpop, h3]
  · intro h1 h2 h3
    simp [transform_input_variables, h1, h2, dpop, h3]
  · intro h1 h3
    simp [transform_input_variables, h1, dpop, h3]
  · intro im d k hk hd
    rw [child_initial_variables] at hd
    cases ht : transform_input_variables ivkeys im parent with
    | none => rw [ht] at hd; exact Option.noConfusion hd
    | some copied =>
      rw [ht] at hd
      have hd2 := Option.some_inj.mp hd
      rw [← hd2, dget_copyKeys]
      simp [hk, dget]

theorem call_activity_in_mapping_amended_witness :
    transform_input_variables ["a"] [("a", "b")] [("a", PyVal.pyint 1)] =
      some [("b", PyVal.pyint 1)] :=
  (call_activity_in_mapping_amended "a" "b" ["a"] [("a", PyVal.pyint 1)]
    (PyVal.pyint 1) PyVal.pynone).2.1 rfl (by simp) rfl

/-- `CallActivity.transform_output_variables`: like the input direction
but the dotted branch does not pop the top-level key, and the rename is
guarded by the key's presence (`if source in dict_to_transform`), so no
`KeyError` is possible. -/
def transform_output_variables : List (String × String) → Dict → Dict
  | [], d => d
  | (source, target) :: rest, d =>
    let d1 :=
      if charInStr (Char.ofNat 46) source then
        dset d target ((nested_dict_get d source).getD PyVal.pynone)
      else d
    let d2 :=
      match dpop d1 source with
      | some (v, dr) => dset dr target v
      | none => d1
    transform_output_variables rest d2

/-- The write-back of `CallActivity.run_subprocess`: if the child did not
finish (`None`), the parent is untouched; otherwise deep-copy the child's
final variables (the identity here), apply `out_mapping`, and copy into
the parent each declared `output_variables` key that the mapped result
holds. -/
def run_subprocess_parent_update (out_mapping : List (String × String))
    (output_variable_keys : List String) (parent : Dict)
    (finished_child : Option Dict) : Dict :=
  match finished_child with
  | none => parent
  | some child =>
    copyKeys (transform_output_variables out_mapping child)
      output_variable_keys parent

/-- C8.  The write-back frame: a parent key outside `output_variables` is
never changed by `run_subprocess`; every written key takes its value from
the out-mapped copy of the child's final variables, keys absent from the
mapped result are skipped; and a child that did not finish leaves the
parent untouched. -/
theorem call_activity_output_write_back_frame
    (out_mapping : List (String × String)) (ovk : List String)
    (parent child : Dict) (k : String) :
    run_subprocess_parent_update out_mapping ovk parent none = parent ∧
    (k ∉ ovk →
      dget (run_subprocess_parent_update out_mapping ovk parent (some child))
        k = dget parent k) ∧
    dget (run_subprocess_parent_update out_mapping ovk parent (some child)) k =
      (if k ∈ ovk ∧
          (dget (transform_output_variables out_mapping child) k).isSome
        then dget (transform_output_variables out_mapping child) k
        else dget parent k) := by
  refine ⟨rfl, ?_, ?_⟩
  · intro hk
    rw [run_subprocess_parent_update, dget_copyKeys]
    simp [hk]
  · rw [run_subprocess_parent_update, dget_copyKeys]

theorem call_activity_output_write_back_frame_witness :
    dget
      (run_subprocess_parent_update [("status", "ticket_status")]
        ["ticket_status"] [("keep", PyVal.pyint 5)]
        (some [("status", PyVal.pystr "ok")])) "keep" =
      dget [("keep", PyVal.pyint 5)] "keep" :=
  (call_activity_output_write_back_frame [("status", "ticket_status")]
    ["ticket_status"] [("keep", PyVal.pyint 5)]
    [("status", PyVal.pystr "ok")] "keep").2.1 (by simp)

/-! ## Receive tasks (`bpmn_types.py`, class `ReceiveTask`) -/

/-- Is this Python value a dict? (`isinstance(x, dict)`.) -/
def isPyDict : PyVal → Bool
  | PyVal.pydict _ => true
  | _ => false

/-- `ReceiveTask.run(state, user_input)`: only when both arguments are
dicts, copy into the state each declared `output_variables` key present in
the payload; always return `True`. -/
def receiveTask_run (output_variable_keys : List String)
    (state user_input : PyVal) : PyVal × Bool :=
  match state, user_input with
  | PyVal.pydict st, PyVal.pydict ui =>
    (PyVal.pydict (copyKeys ui output_variable_keys st), true)
  | st, _ => (st, true)

/-- C10.  `ReceiveTask.run` always returns `True`; when either argument is
not a dict the state is left completely unchanged; and when both are
dicts, exactly the declared output keys present in the payload are
written, every other state key being untouched. -/
theorem receive_task_run_total_and_frame (ovk : List String)
    (state user_input : PyVal) :
    (receiveTask_run ovk state user_input).2 = true ∧
    (¬ (isPyDict state = true ∧ isPyDict user_input = true) →
      (receiveTask_run ovk state user_input).1 = state) ∧
    (∀ st ui, state = PyVal.pydict st → user_input = PyVal.pydict ui →
      ∃ st2, (receiveTask_run ovk state user_input).1 = PyVal.pydict st2 ∧
        ∀ k, dget st2 k =
          if k ∈ ovk ∧ (dget ui k).isSome then dget ui k else dget st k) := by
  refine ⟨?_, ?_, ?_⟩
  · cases state <;> cases user_input <;> rfl
  · intro h
    cases state <;> cases user_input <;>
      first
        | rfl
        | exact absurd ⟨rfl, rfl⟩ h
  · intro st ui hst hui
    subst hst
    subst hui
    exact ⟨copyKeys ui ovk st, rfl, fun k => dget_copyKeys ui ovk st k⟩

theorem receive_task_run_total_and_frame_witness :
    (receiveTask_run ["a"] (PyVal.pyint 3) (PyVal.pydict [])).1 =
      PyVal.pyint 3 :=
  (receive_task_run_total_and_frame ["a"] (PyVal.pyint 3)
    (PyVal.pydict [])).2.1 (fun h => by simp [isPyDict] at h)

/-! ## Instance search (`server.py`, handler `search_instance`) -/

/-- Is this Python value a string? (`isinstance(x, str)`.) -/
def isPyStr : PyVal → Bool
  | PyVal.pystr _ => true
  | _ => false

/-- The string payload of a Python value (meaningful under `isPyStr`). -/
def asStr : PyVal → String
  | PyVal.pystr s => s
  | _ => ""

/-- Does the needle occur as a contiguous substring at the start? -/
def leadsWith : List Char → List Char → Bool
  | [], _ => true
  | _ :: _, [] => false
  | a :: as, b :: bs => a = b && leadsWith as bs

/-- Substring search over character lists. -/
def substrAux (n : List Char) : List Char → Bool
  | [] => n.isEmpty
  | c :: rest => leadsWith n (c :: rest) || substrAux n rest

/-- Python's `needle in hay` on strings: contiguous substring. -/
def substrOf (needle hay : String) : Bool :=
  substrAux needle.data hay.data

/-- One clause of `search_instance` against one instance's variables:
some entry whose key is non-empty, whose key contains the (lowered)
attribute as a substring (an empty attribute matches every key), whose
value is a string, and whose lowered value contains the (lowered) search
value.  The handler collects matching attribute names and appends the
instance id once per match before deduplicating through `set(ids)`; with
the dict's keys distinct this is equivalent to this existence test. -/
def clauseMatch (att value : String) (vars : Dict) : Bool :=
  vars.any (fun kv =>
    (att == "" || substrOf att (pyLower kv.1)) &&
    isPyStr kv.2 &&
    (kv.1 != "") &&
    substrOf value (pyLower (asStr kv.2)))

/-- The per-clause id set of `search_instance`, as the duplicate-free list
of matching instance ids in iteration order. -/
def clauseIds (att value : String) (instances : List (String × Dict)) :
    List String :=
  (instances.filter (fun inst => clauseMatch att value inst.2)).map
    (fun inst => inst.1)

/-- One comma-separated clause, parsed as the handler does: prepend `:`
when no colon is present, split on `:`, and strip-and-lower both halves.
A clause with more than one colon makes the tuple unpacking fail, which
the handler answers with HTTP 400 (`none` here). -/
def parseClause (c : String) : Option (String × String) :=
  let c2 := if charInStr (Char.ofNat 58) c then c else ":" ++ c
  match strSplitOn c2 (Char.ofNat 58) with
  | [a, v] => some (pyLower (pyStrip a), pyLower (pyStrip v))
  | _ => none

/-- The full query string, split on commas. -/
def parseQuery (q : String) : Option (List (String × String)) :=
  (strSplitOn q (Char.ofNat 44)).mapM parseClause

/-- Set intersection on id lists (`set.intersection`; ids are distinct). -/
def listInter (a b : List String) : List String :=
  a.filter (fun x => b.contains x)

/-- `search_instance` over the registry's instances: parse the query into
`(attribute, value)` clauses (`none` = HTTP 400), build the per-clause id
sets, and reduce with `reduce(intersection, result_ids[:-1],
result_ids[0])` — note the `[:-1]` slice, faithful to the source, which
drops the final clause's id set from the intersection. -/
def search_instance (q : String) (instances : List (String × Dict)) :
    Option (List String) :=
  match parseQuery q with
  | none => none
  | some queries =>
    let result_ids := queries.map (fun av => clauseIds av.1 av.2 instances)
    match result_ids with
    | [] => none
    | s0 :: _ => some (result_ids.dropLast.foldl listInter s0)

/-- C9.  The result set is not always the intersection of all per-clause
id sets: with one instance `i1` holding `name = "alice"` and the query
`"name:alice,name:bob"`, the clause `name:bob` matches no instance
(its id set is empty), yet the handler returns `{i1}` — the last clause is
dropped by the `result_ids[:-1]` fold seeded with `result_ids[0]`. -/
theorem search_last_clause_dropped :
    search_instance "name:alice,name:bob"
        [("i1", [("name", PyVal.pystr "alice")])] = some ["i1"] ∧
    clauseIds "name" "bob" [("i1", [("name", PyVal.pystr "alice")])] = [] :=
  ⟨rfl, rfl⟩
